import Mathlib

/-!
Verification development for the vigil discovery service
(package `discovery` in `services/discovery-service`).

The definitions below are a shallow embedding of the discovery engine's
storage pipeline and concurrency skeleton:

* the relational store (`users`, `emails`, `user_emails`) is a record of
  lists; each SQL statement of the source becomes one pure function that
  executes the statement's semantics on that record;
* `storeEmail` and `processEmail` are line-by-line translations of the
  functions of the same names; injectable fault flags stand for the
  store-call failures the Go code handles (`uuid.Parse` failure, failed
  SELECT, failed INSERT, failed link INSERT, failed UPDATEs);
* SHA-256 and UUID parsing are opaque to the logic, so they are passed in
  as an `Env` of abstract functions (the code only compares their outputs
  for equality);
* the shutdown wait-group and the per-worker counter increments are
  modelled as event traces with well-formedness predicates capturing the
  per-goroutine program order that the Go runtime guarantees.

Timestamps are `Int` nanoseconds (Go `time.Time` / `time.Duration`
arithmetic at the precision the code uses); identifiers (UUIDs) are `Nat`.
-/

namespace Vigil

/-- Environment of opaque primitive operations used by `storeEmail`:
`parseUuid` models `uuid.Parse` (which can fail), `sha256hex` models
`fmt.Sprintf("%x", sha256.Sum256(...))`.  The discovery code only ever
compares their results for equality, so they are abstract here. -/
structure Env where
  parseUuid : String → Option Nat
  sha256hex : String → Nat

/-- Row of the `emails` table: `id UUID PRIMARY KEY, fingerprint UNIQUE,
received_at`. -/
structure EmailRow where
  id : Nat
  fingerprint : Nat
  receivedAt : Int
deriving DecidableEq

/-- Row of the `users` table. -/
structure UserRow where
  id : Nat
  email : String
  lastEmailCheck : Option Int
  lastEmailReceived : Option Int
deriving DecidableEq

/-- Row of the `user_emails` junction table (primary key `(user_id, email_id)`). -/
structure UserEmailRow where
  userId : Nat
  emailId : Nat
deriving DecidableEq

/-- The relational store visible to the discovery service. -/
structure DB where
  users : List UserRow
  emails : List EmailRow
  userEmails : List UserEmailRow
deriving DecidableEq

/-- The fields of `models.ProviderEmail` that `storeEmail`/`processEmail`
read (`MessageID`, `ReceivedAt`, `Body`; the remaining fields are never
consulted by the storage path). -/
structure ProviderEmail where
  messageId : String
  receivedAt : Int
  body : String
deriving DecidableEq

/-- An `(email, user)` item travelling the fan-in stream (`EmailWithUser`). -/
structure EmailWithUser where
  email : ProviderEmail
  userId : Nat
deriving DecidableEq

/-- Errors `storeEmail` can return. -/
inductive StoreErr
  | invalidMessageId
  | checkFailed
  | insertFailed
  | linkFailed
deriving DecidableEq

/-- Injectable failures of the individual store calls inside `storeEmail`
(the Go code receives these as errors from the pgx pool). -/
structure StoreFaults where
  checkFails : Bool
  insertFails : Bool
  linkFails : Bool
deriving DecidableEq

instance : DecidableEq (Except StoreErr Bool) := fun x y =>
  match x, y with
  | .error a, .error b =>
    if h : a = b then isTrue (congrArg Except.error h)
    else isFalse (fun hc => h (Except.error.inj hc))
  | .ok a, .ok b =>
    if h : a = b then isTrue (congrArg Except.ok h)
    else isFalse (fun hc => h (Except.ok.inj hc))
  | .error _, .ok _ => isFalse (fun hc => Except.noConfusion hc)
  | .ok _, .error _ => isFalse (fun hc => Except.noConfusion hc)

/-- Result of one `storeEmail` call: the store afterwards, how many times
`emails_discovered` was atomically incremented during the call, and the
Go return value `(isNewEmail, err)`. -/
structure StoreResult where
  db : DB
  discIncr : Nat
  result : Except StoreErr Bool
deriving DecidableEq

/-- Final section of `storeEmail`: the `INSERT INTO user_emails ... ON
CONFLICT (user_id, email_id) DO NOTHING` link step.  `discIncr` has been
determined before this point in the source (metrics are updated before the
link), so a link failure returns an error while keeping the increment. -/
def linkEmailToUser (faults : StoreFaults) (db : DB) (isNew : Bool)
    (discIncr : Nat) (emailId userId : Nat) : StoreResult :=
  if faults.linkFails then ⟨db, discIncr, .error .linkFailed⟩
  else if db.userEmails.any (fun r => decide (r.userId = userId) && decide (r.emailId = emailId)) then
    ⟨db, discIncr, .ok isNew⟩
  else
    ⟨{ db with userEmails := db.userEmails ++ [⟨userId, emailId⟩] }, discIncr, .ok isNew⟩

/-- Shallow embedding of `Service.storeEmail` (the deduplicating store
step).  Control flow follows the source exactly:

1. parse `message_id` (error → `invalidMessageId`);
2. compute the fingerprint of the body;
3. `SELECT id FROM emails WHERE fingerprint = $1 LIMIT 1`; a hit adopts the
   existing row's id with `isNewEmail = false`;
4. on a miss, `INSERT INTO emails (id, fingerprint, received_at) VALUES
   (...) ON CONFLICT (id) DO UPDATE SET received_at = EXCLUDED.received_at`.
   With one statement at a time (the sequential semantics of the pooled
   single-statement transactions), this INSERT can only conflict on `id`
   — the fingerprint was just checked to be absent — and an `id` conflict
   makes the upsert SUCCEED (`DO UPDATE`), so the source takes its
   `err == nil` branch and sets `isNewEmail = true`.  The source's
   fingerprint-conflict recovery branch (re-query by fingerprint after a
   `23505` error) is only reachable through a concurrent insert between
   check and insert and is therefore dead in this one-statement-at-a-time
   model;
5. metrics: `emails_discovered` is incremented exactly when `isNewEmail`;
6. the `user_emails` link upsert (`linkEmailToUser`). -/
def storeEmail (env : Env) (faults : StoreFaults) (db : DB)
    (pEmail : ProviderEmail) (userID : Nat) : StoreResult :=
  match env.parseUuid pEmail.messageId with
  | none => ⟨db, 0, .error .invalidMessageId⟩
  | some parsedId =>
    let fingerprint := env.sha256hex pEmail.body
    if faults.checkFails then ⟨db, 0, .error .checkFailed⟩
    else
      match db.emails.find? (fun r => decide (r.fingerprint = fingerprint)) with
      | some row => linkEmailToUser faults db false 0 row.id userID
      | none =>
        if faults.insertFails then ⟨db, 0, .error .insertFailed⟩
        else if db.emails.any (fun r => decide (r.id = parsedId)) then
          linkEmailToUser faults
            { db with emails := db.emails.map (fun r =>
                if r.id = parsedId then { r with receivedAt := pEmail.receivedAt } else r) }
            true 1 parsedId userID
        else
          linkEmailToUser faults
            { db with emails := db.emails ++ [⟨parsedId, fingerprint, pEmail.receivedAt⟩] }
            true 1 parsedId userID

/-- The statement `UPDATE users SET last_email_check = $1 WHERE id = $2`. -/
def updateLastEmailCheck (users : List UserRow) (uid : Nat) (now : Int) : List UserRow :=
  users.map (fun u => if u.id = uid then { u with lastEmailCheck := some now } else u)

/-- Row-level semantics of the conditional timestamp update: the stored
`last_email_received` value after `UPDATE ... SET last_email_received = $1
WHERE ... (last_email_received IS NULL OR $1 > last_email_received)` has
run against a row holding `stored`. -/
def updateLastEmailReceived (stored : Option Int) (v : Int) : Option Int :=
  match stored with
  | none => some v
  | some s => if v > s then some v else some s

/-- The statement `UPDATE users SET last_email_received = $1 WHERE id = $2
AND (last_email_received IS NULL OR $1 > last_email_received)`. -/
def condUpdateLastEmailReceived (users : List UserRow) (uid : Nat) (v : Int) : List UserRow :=
  users.map (fun u =>
    if u.id = uid then { u with lastEmailReceived := updateLastEmailReceived u.lastEmailReceived v }
    else u)

/-- Injectable failures of the three storage operations of one
`processEmail` worker. -/
structure ProcFaults where
  store : StoreFaults
  checkUpdateFails : Bool
  receivedUpdateFails : Bool
deriving DecidableEq

/-- Observable outcome of one `processEmail` worker: the store afterwards,
the counter increments it performed (`emails_discovered`,
`emails_to_queue`), and whether the two timestamp UPDATE statements were
attempted at all (an attempted statement may itself still fail). -/
structure ProcResult where
  db : DB
  discIncr : Nat
  queueIncr : Nat
  checkAttempted : Bool
  receivedAttempted : Bool
deriving DecidableEq

/-- Shallow embedding of the body of the per-item worker spawned by
`Service.processEmail`:

1. if the context is already cancelled, return without I/O;
2. `storeEmail`; on error, log and RETURN — the two timestamp updates are
   not attempted;
3. if `isNew`, `sendToAnalysisQueue` (in the stub: `emails_to_queue` +1);
4. unconditionally attempt `UPDATE users SET last_email_check = now`;
5. if `isNew`, attempt the conditional `last_email_received` update. -/
def processEmail (env : Env) (faults : ProcFaults) (db : DB)
    (ewu : EmailWithUser) (now : Int) (cancelled : Bool) : ProcResult :=
  if cancelled then ⟨db, 0, 0, false, false⟩
  else
    match storeEmail env faults.store db ewu.email ewu.userId with
    | ⟨db1, discIncr, .error _⟩ => ⟨db1, discIncr, 0, false, false⟩
    | ⟨db1, discIncr, .ok isNew⟩ =>
      let queueIncr := if isNew then 1 else 0
      let db2 := if faults.checkUpdateFails then db1
                 else { db1 with users := updateLastEmailCheck db1.users ewu.userId now }
      let db3 := if isNew then
                   (if faults.receivedUpdateFails then db2
                    else { db2 with users := condUpdateLastEmailReceived db2.users ewu.userId ewu.email.receivedAt })
                 else db2
      ⟨db3, discIncr, queueIncr, true, isNew⟩

/-- Faultless store calls. -/
def noStoreFaults : StoreFaults := ⟨false, false, false⟩

/-- Faultless processing. -/
def noProcFaults : ProcFaults := ⟨noStoreFaults, false, false⟩

/-! ### Concrete instances for claims C1 and C2

An environment in which message id `"m1"` parses to id `1`, body
`"bodyA"` has fingerprint `10` and every other body has fingerprint `20`.
The store already holds an email row `id = 1` with fingerprint `10`
(stored earlier for a provider email with the same message id but body
`"bodyA"`), so storing a provider email with message id `"m1"` and body
`"bodyB"` misses on fingerprint and then conflicts on the primary key
`id`. -/

def envIdConflict : Env :=
  ⟨fun s => if s = "m1" then some 1 else none,
   fun b => if b = "bodyA" then 10 else 20⟩

def dbIdConflict : DB := ⟨[⟨7, "a@x", none, none⟩], [⟨1, 10, 5⟩], []⟩

def emailIdConflict : ProviderEmail := ⟨"m1", 99, "bodyB"⟩

def ewuIdConflict : EmailWithUser := ⟨⟨"m1", 5, "bodyB"⟩, 7⟩

/-- First processing of `ewuIdConflict` (claim C2's failing run). -/
def procOnceIdConflict : ProcResult :=
  processEmail envIdConflict noProcFaults dbIdConflict ewuIdConflict 100 false

/-- Second processing of the identical item against the store the first
processing produced. -/
def procTwiceIdConflict : ProcResult :=
  processEmail envIdConflict noProcFaults procOnceIdConflict.db ewuIdConflict 100 false

/-- C1: when the fingerprint is absent and the insert hits a conflict on
the primary key `id`, the source's upsert (`ON CONFLICT (id) DO UPDATE SET
received_at = EXCLUDED.received_at`) succeeds, so `received_at` is indeed
overwritten with the new value (`5 ↦ 99` here, with the old fingerprint
kept) — but the source then takes its `err == nil` branch, returns
`isNewEmail = true` and increments `emails_discovered`, contradicting the
claimed "treat as not new".  Evaluated at the concrete conflicting input. -/
theorem c1_id_conflict_counts_as_new :
    storeEmail envIdConflict noStoreFaults dbIdConflict emailIdConflict 7 =
      ⟨⟨[⟨7, "a@x", none, none⟩], [⟨1, 10, 99⟩], [⟨7, 1⟩]⟩, 1, .ok true⟩ := by
  decide

/-- C2: re-processing the identical `ProviderEmail` is NOT counted once.
Because the id-conflicting upsert never stores the new fingerprint, every
re-processing of the same item misses the fingerprint lookup again, takes
the conflict path again, and increments `emails_discovered` again: two
processings increment the counter twice (the table contents do stabilise). -/
theorem c2_reprocess_increments_discovered_again :
    procOnceIdConflict.discIncr = 1 ∧ procTwiceIdConflict.discIncr = 1 ∧
      procTwiceIdConflict.db = procOnceIdConflict.db := by
  decide

/-! ### Claim C3: independence of the three storage operations -/

/-- Fault assignment in which only the `user_emails` link INSERT inside the
store step fails. -/
def linkOnlyFaults : ProcFaults := ⟨⟨false, false, true⟩, false, false⟩

def envFresh : Env := ⟨fun s => if s = "m2" then some 2 else none, fun _ => 30⟩

def dbFresh : DB := ⟨[⟨8, "b@x", none, none⟩], [], []⟩

def ewuFresh : EmailWithUser := ⟨⟨"m2", 40, "hello"⟩, 8⟩

/-- C3 fails: the three storage operations are NOT mutually independent.
At this input the store step fails (its link INSERT errors), and the
worker returns immediately: neither the `last_email_check` update nor the
`last_email_received` update is even attempted. -/
theorem c3_store_failure_blocks_timestamp_updates :
    (storeEmail envFresh linkOnlyFaults.store dbFresh ewuFresh.email ewuFresh.userId).result
        = .error .linkFailed ∧
      (processEmail envFresh linkOnlyFaults dbFresh ewuFresh 50 false).checkAttempted = false ∧
      (processEmail envFresh linkOnlyFaults dbFresh ewuFresh 50 false).receivedAttempted = false := by
  decide

/-- C3 amended: failure of the store step aborts the item — the two
timestamp updates are not attempted and nothing is handed downstream —
while after a successful store the two timestamp updates are independent
of each other: the `last_email_check` update is always attempted and the
conditional `last_email_received` update is attempted exactly when
*is-new*, regardless of whether either UPDATE itself fails. -/
theorem c3_store_aborts_item_updates_independent (env : Env) (faults : ProcFaults)
    (db : DB) (ewu : EmailWithUser) (now : Int) :
    (∀ e, (storeEmail env faults.store db ewu.email ewu.userId).result = .error e →
      processEmail env faults db ewu now false =
        ⟨(storeEmail env faults.store db ewu.email ewu.userId).db,
         (storeEmail env faults.store db ewu.email ewu.userId).discIncr, 0, false, false⟩) ∧
    (∀ b, (storeEmail env faults.store db ewu.email ewu.userId).result = .ok b →
      (processEmail env faults db ewu now false).checkAttempted = true ∧
      (processEmail env faults db ewu now false).receivedAttempted = b) := by
  rcases hst : storeEmail env faults.store db ewu.email ewu.userId with ⟨db1, d, r⟩
  constructor
  · intro e he
    simp only at he
    subst he
    simp [processEmail, hst]
  · intro b hb
    simp only at hb
    subst hb
    simp [processEmail, hst]

/-- Witness for `c3_store_aborts_item_updates_independent` at a concrete
input: with a faultless store and both timestamp UPDATE statements forced
to fail, both updates are nevertheless attempted. -/
theorem c3_witness :
    (processEmail envFresh ⟨noStoreFaults, true, true⟩ dbFresh ewuFresh 50 false).checkAttempted = true ∧
      (processEmail envFresh ⟨noStoreFaults, true, true⟩ dbFresh ewuFresh 50 false).receivedAttempted = true :=
  (c3_store_aborts_item_updates_independent envFresh ⟨noStoreFaults, true, true⟩
    dbFresh ewuFresh 50).2 true (by decide)

/-! ### Claim C5: monotonicity of `last_email_received` -/

/-- C5: the conditional update never lowers the stored timestamp.  On an
absent value it writes the new one; on a stored value `s` it produces
`max s v` (it writes `v` exactly when `v > s`, otherwise the row predicate
is false and `s` is kept), so each application — and hence any sequence of
applications across the run — is monotonic non-decreasing.  This UPDATE is
the only statement in the service that writes `last_email_received`. -/
theorem c5_last_email_received_monotonic :
    ∀ (s v : Int) (vs : List Int),
      updateLastEmailReceived none v = some v ∧
      updateLastEmailReceived (some s) v = some (max s v) ∧
      s ≤ max s v ∧
      ∃ r, vs.foldl updateLastEmailReceived (some s) = some r ∧ s ≤ r := by
  have hmax : ∀ (s v : Int), updateLastEmailReceived (some s) v = some (max s v) := by
    intro s v
    rcases le_or_lt v s with h | h
    · simp [updateLastEmailReceived, not_lt.mpr h, max_eq_left h]
    · simp [updateLastEmailReceived, h, max_eq_right h.le]
  have hfold : ∀ (vs : List Int) (s : Int),
      ∃ r, vs.foldl updateLastEmailReceived (some s) = some r ∧ s ≤ r := by
    intro vs
    induction vs with
    | nil => intro s; exact ⟨s, rfl, le_refl s⟩
    | cons v vs ih =>
      intro s
      obtain ⟨r, hr, hle⟩ := ih (max s v)
      refine ⟨r, ?_, le_trans (le_max_left s v) hle⟩
      simpa [List.foldl, hmax s v] using hr
  intro s v vs
  exact ⟨rfl, hmax s v, le_max_left s v, hfold vs s⟩

/-! ### Claim C6: the `received_after` computation of `pollEmailsForUser` -/

/-- Nanoseconds in one second (`time.Second`). -/
def oneSecondNs : Int := 1000000000

/-- Nanoseconds in 24 hours (`24 * time.Hour`). -/
def twentyFourHoursNs : Int := 24 * 3600 * 1000000000

/-- The `receivedAfter` selection of `pollEmailsForUser`, computed from the
freshly-read user row: `last_email_received` minus one second when
present, else `last_email_check` minus one second when present, else 24
hours before now. -/
def pollReceivedAfter (lastEmailReceived lastEmailCheck : Option Int) (now : Int) : Int :=
  match lastEmailReceived with
  | some t => t - oneSecondNs
  | none =>
    match lastEmailCheck with
    | some t => t - oneSecondNs
    | none => now - twentyFourHoursNs

/-- C6: the three cases of the `received_after` computation, exactly as
the source orders them (`last_email_received` takes priority over
`last_email_check`, which takes priority over the 24-hour fallback). -/
theorem c6_received_after_selection :
    ∀ (t now : Int) (lc : Option Int),
      pollReceivedAfter (some t) lc now = t - oneSecondNs ∧
      pollReceivedAfter none (some t) now = t - oneSecondNs ∧
      pollReceivedAfter none none now = now - twentyFourHoursNs := by
  intro t now lc
  exact ⟨rfl, rfl, rfl⟩

/-! ### Claim C7: the deterministic initial polling delay -/

/-- Nanoseconds in `PollingJitterMax = 30 * time.Second`
(the value of `uint64(PollingJitterMax.Nanoseconds())`). -/
def pollingJitterMaxNs : Nat := 30000000000

/-- Big-endian interpretation of a byte sequence
(`binary.BigEndian.Uint64`; applied by the source to exactly 8 bytes, so
the result is below 2^64 and the `uint64` arithmetic never wraps). -/
def bigEndianUint64 (bytes : List (Fin 256)) : Nat :=
  bytes.foldl (fun acc b => acc * 256 + b.val) 0

/-- Shallow embedding of `Service.calculateInitialDelay`: the first 8
bytes of the user's UUID, interpreted big-endian, modulo the jitter
maximum.  A pure function of the 16-byte id, hence deterministic: two runs
with the same user id compute the same delay. -/
def calculateInitialDelay (userID : List (Fin 256)) : Nat :=
  bigEndianUint64 (userID.take 8) % pollingJitterMaxNs

/-- C7: the initial delay always lies in `[0, jitter_max)` (`Nat`, so the
lower bound is inherent) and equals the first-8-bytes big-endian value
modulo `jitter_max`, for every user id. -/
theorem c7_initial_delay_deterministic_and_bounded :
    ∀ (userID : List (Fin 256)),
      calculateInitialDelay userID < pollingJitterMaxNs ∧
      calculateInitialDelay userID = bigEndianUint64 (userID.take 8) % pollingJitterMaxNs := by
  intro u
  exact ⟨Nat.mod_lt _ (by norm_num [pollingJitterMaxNs]), rfl⟩

/-! ### Claim C4: graceful shutdown

`Shutdown(timeout)` races a channel that is closed when
`processingWg.Wait()` returns against `time.After(timeout)` and returns
`true` exactly when the former wins the `select`.  We model an execution
as a linearized trace of the three relevant events: a storage worker
releasing its wait-group registration (`workerDone`), the `done` channel
closing (`doneClosed`), and the timeout timer firing (`timeoutFired`).
The wait-group semantics — `Wait` returns only after every registered
worker has called `Done` — is the well-formedness predicate `wgOk`; the
`select` is `firstDecision`, which picks whichever decision event occurs
first in the trace. -/

/-- Events of a `Shutdown` run. -/
inductive SEvent
  | workerDone (w : Nat)
  | doneClosed
  | timeoutFired
deriving DecidableEq

/-- Whether an event resolves the `select` inside `Shutdown`. -/
def isDecision : SEvent → Bool
  | .doneClosed => true
  | .timeoutFired => true
  | .workerDone _ => false

/-- The value `Shutdown` returns on a trace: `true` if the drain signal
comes first, `false` if the timeout fires first, `none` if the run was cut
before either. -/
def firstDecision : List SEvent → Option Bool
  | [] => none
  | .doneClosed :: _ => some true
  | .timeoutFired :: _ => some false
  | .workerDone _ :: rest => firstDecision rest

/-- Wait-group well-formedness: walking the trace while accumulating the
workers seen to have completed, the `done` channel may close only when
every registered worker has already completed. -/
def wgOk (workers : List Nat) (seen : List Nat) : List SEvent → Bool
  | [] => true
  | .workerDone i :: rest => wgOk workers (i :: seen) rest
  | .doneClosed :: rest => workers.all (fun w => decide (w ∈ seen)) && wgOk workers seen rest
  | .timeoutFired :: rest => wgOk workers seen rest

theorem wgOk_decision_true_mem (workers : List Nat) :
    ∀ (tr : List SEvent) (seen : List Nat),
      wgOk workers seen tr = true → firstDecision tr = some true →
      ∀ w ∈ workers, w ∈ seen ∨ SEvent.workerDone w ∈ tr.takeWhile (fun e => !isDecision e) := by
  intro tr
  induction tr with
  | nil => intro seen _ hfd; simp [firstDecision] at hfd
  | cons e rest ih =>
    intro seen hwf hfd w hw
    cases e with
    | workerDone i =>
      simp only [wgOk] at hwf
      have hfd2 : firstDecision rest = some true := hfd
      rcases ih (i :: seen) hwf hfd2 w hw with h | h
      · rcases List.mem_cons.mp h with h1 | h1
        · right
          subst h1
          simp [List.takeWhile, isDecision]
        · left; exact h1
      · right
        simpa [List.takeWhile, isDecision] using Or.inr h
    | doneClosed =>
      simp only [wgOk, Bool.and_eq_true, List.all_eq_true] at hwf
      left
      simpa using hwf.1 w hw
    | timeoutFired => simp [firstDecision] at hfd

theorem firstDecision_timeout_first :
    ∀ (pre post : List SEvent), (∀ e ∈ pre, isDecision e = false) →
      firstDecision (pre ++ SEvent.timeoutFired :: post) = some false := by
  intro pre
  induction pre with
  | nil => intro post _; rfl
  | cons e rest ih =>
    intro post h
    cases e with
    | workerDone i =>
      simpa [firstDecision] using ih post (fun x hx => h x (List.mem_cons_of_mem _ hx))
    | doneClosed =>
      exact absurd (h _ (List.mem_cons_self _ _)) (by simp [isDecision])
    | timeoutFired =>
      exact absurd (h _ (List.mem_cons_self _ _)) (by simp [isDecision])

/-- C4: on every wait-group-respecting trace, if `Shutdown` returns `true`
then every registered storage worker completed before the decision point
(so it never returns `true` with a store worker still pending), and if the
timeout fires before the drain signal then `Shutdown` returns `false`. -/
theorem c4_shutdown_true_only_after_drain :
    ∀ (workers : List Nat) (tr : List SEvent), wgOk workers [] tr = true →
      (firstDecision tr = some true →
        ∀ w ∈ workers, SEvent.workerDone w ∈ tr.takeWhile (fun e => !isDecision e)) ∧
      (∀ pre post, tr = pre ++ SEvent.timeoutFired :: post →
        (∀ e ∈ pre, isDecision e = false) → firstDecision tr = some false) := by
  intro workers tr hwf
  constructor
  · intro hfd w hw
    rcases wgOk_decision_true_mem workers tr [] hwf hfd w hw with h | h
    · cases h
    · exact h
  · intro pre post htr hpre
    rw [htr]
    exact firstDecision_timeout_first pre post hpre

/-- Trace used to witness `c4_shutdown_true_only_after_drain`: both
workers complete, the drain signal wins, and the timer fires afterwards. -/
def shutdownTrace : List SEvent :=
  [SEvent.workerDone 1, SEvent.workerDone 2, SEvent.doneClosed, SEvent.timeoutFired]

/-- Witness for C4 at a concrete trace. -/
theorem c4_witness :
    SEvent.workerDone 1 ∈ shutdownTrace.takeWhile (fun e => !isDecision e) :=
  (c4_shutdown_true_only_after_drain [1, 2] shutdownTrace (by decide)).1 (by decide) 1 (by decide)

/-! ### Claims C8 and C9: the user tracker -/

/-- Membership events sent on the `userMessages` channel. -/
inductive UMsg
  | addUser (id : Nat)
  | removeUser (id : Nat)
deriving DecidableEq

/-- Tracker state: the `initialDiscoveryDone` flag and the key set of the
`activeUsers` map. -/
structure TrackerState where
  initialDone : Bool
  activeUsers : List Nat
deriving DecidableEq

/-- Externally visible outcome of one `discoverUsersOnce` tick: the state
afterwards, the number of direct membership-change pulses this tick sent
to the fan-in builder (the batch path's non-blocking send), and the
`AddUser`/`RemoveUser` events it sent in order. -/
structure TickOut where
  state : TrackerState
  pulses : Nat
  messages : List UMsg
deriving DecidableEq

/-- Shallow embedding of `Service.discoverUsersOnce`.  The provider and
database user lists are the ids the two reads return; store upserts do
not affect the tracker logic and are elided.  `isInitial` is the flag
test-and-set; `usersToAdd` collects provider users absent from the
active-user map (the map is not mutated during the collection loop);
the batch path registers them all and sends one non-blocking pulse only
when the batch is nonempty; the incremental path instead emits one
`AddUser` event per absent user; finally one `RemoveUser` event is sent
per database user that left the provider and has an active entry (checked
against the map as updated by the batch path). -/
def discoverUsersOnce (st : TrackerState) (providerUsers dbUsers : List Nat) : TickOut :=
  let isInitial := !st.initialDone
  let usersToAdd := providerUsers.filter (fun u => decide (u ∉ st.activeUsers))
  let newActive := if isInitial && !usersToAdd.isEmpty then st.activeUsers ++ usersToAdd
                   else st.activeUsers
  let pulses : Nat := if isInitial && !usersToAdd.isEmpty then 1 else 0
  let addMsgs := if isInitial then [] else usersToAdd.map UMsg.addUser
  let removeMsgs := (dbUsers.filter (fun d => decide (d ∉ providerUsers) && decide (d ∈ newActive))).map
    UMsg.removeUser
  ⟨⟨true, newActive⟩, pulses, addMsgs ++ removeMsgs⟩

/-- C8 fails as stated: an initial tick whose batch of absent users is
empty (here: the provider returns no users) sends NO membership-change
pulse at all — the source guards the pulse with `len(usersToAdd) > 0` —
so "exactly one pulse is then delivered" does not hold for every first
tick. -/
theorem c8_initial_tick_can_send_no_pulse :
    (discoverUsersOnce ⟨false, []⟩ [] []).pulses = 0 ∧
      (discoverUsersOnce ⟨false, []⟩ [] []).pulses ≠ 1 := by
  decide

/-- C8 amended: on the first tick every provider user absent from the
active-user map is registered synchronously (the resulting map contains
all provider users), no per-user `AddUser` event is emitted, and exactly
one membership-change pulse is attempted (a non-blocking send) provided
the batch of absent users is nonempty — an empty batch sends none.
Subsequent ticks leave the map untouched and instead emit one
`AddUser` event per absent provider user and one `RemoveUser` event per
vanished active user. -/
theorem c8_initial_batch_registers_then_single_pulse (st : TrackerState)
    (pUsers dbUsers : List Nat) :
    (st.initialDone = false →
      (∀ u ∈ pUsers, u ∈ (discoverUsersOnce st pUsers dbUsers).state.activeUsers) ∧
      (pUsers.filter (fun u => decide (u ∉ st.activeUsers)) ≠ [] →
        (discoverUsersOnce st pUsers dbUsers).pulses = 1) ∧
      (pUsers.filter (fun u => decide (u ∉ st.activeUsers)) = [] →
        (discoverUsersOnce st pUsers dbUsers).pulses = 0) ∧
      (∀ u, UMsg.addUser u ∉ (discoverUsersOnce st pUsers dbUsers).messages)) ∧
    (st.initialDone = true →
      (discoverUsersOnce st pUsers dbUsers).state.activeUsers = st.activeUsers ∧
      (discoverUsersOnce st pUsers dbUsers).pulses = 0 ∧
      (discoverUsersOnce st pUsers dbUsers).messages =
        (pUsers.filter (fun u => decide (u ∉ st.activeUsers))).map UMsg.addUser ++
        (dbUsers.filter (fun d => decide (d ∉ pUsers) && decide (d ∈ st.activeUsers))).map
          UMsg.removeUser) := by
  obtain ⟨init, act⟩ := st
  constructor
  · rintro rfl
    by_cases hf : pUsers.filter (fun u => decide (u ∉ act)) = []
    · have hAll : ∀ x ∈ pUsers, x ∈ act := by
        intro x hx
        by_contra hmem
        have hxf : x ∈ pUsers.filter (fun u => decide (u ∉ act)) :=
          List.mem_filter.mpr ⟨hx, by simpa using hmem⟩
        rw [hf] at hxf
        cases hxf
      have hC : ¬∃ x ∈ pUsers, x ∉ act := fun ⟨x, hx, hnx⟩ => hnx (hAll x hx)
      refine ⟨?_, fun h => absurd hf h, fun _ => ?_, ?_⟩
      · intro u hu
        simp [discoverUsersOnce]
        rw [if_neg hC]
        exact hAll u hu
      · simp [discoverUsersOnce]
        exact hAll
      · intro u
        simp only [discoverUsersOnce]
        simp [hf]
    · have hne : (pUsers.filter (fun u => decide (u ∉ act))).isEmpty = false := by
        simpa [List.isEmpty_iff] using hf
      have hEx : ∃ x ∈ pUsers, x ∉ act := by
        obtain ⟨x, hx⟩ := List.exists_mem_of_ne_nil _ hf
        have hx2 := List.mem_filter.mp hx
        exact ⟨x, hx2.1, by simpa using hx2.2⟩
      refine ⟨?_, fun _ => ?_, fun h => absurd h hf, ?_⟩
      · intro u hu
        simp [discoverUsersOnce]
        rw [if_pos hEx]
        by_cases hmem : u ∈ act
        · simp [hmem]
        · simp only [List.mem_append]
          right
          simp only [List.mem_filter]
          exact ⟨hu, by simpa using hmem⟩
      · simp [discoverUsersOnce]
        exact hEx
      · intro u
        simp only [discoverUsersOnce]
        simp [hne]
  · rintro rfl
    refine ⟨?_, ?_, ?_⟩ <;> simp [discoverUsersOnce]

/-- Witness for C8 (amended) at a concrete first tick: one user absent,
one already active; exactly one pulse is attempted. -/
theorem c8_witness :
    (discoverUsersOnce ⟨false, [9]⟩ [4, 9] []).pulses = 1 :=
  ((c8_initial_batch_registers_then_single_pulse ⟨false, [9]⟩ [4, 9] []).1 rfl).2.1 (by decide)

/-- Outcome of one `handleAddUser` call: the active-user map afterwards,
whether a new polling goroutine was started, and how many
membership-change pulses were sent. -/
structure AddUserOut where
  active : List Nat
  started : Bool
  pulses : Nat
deriving DecidableEq

/-- Shallow embedding of `Service.handleAddUser`: if the user already has
an active entry, log and return (no map change, no goroutine, no pulse);
if the database read fails, log and return; otherwise register the user,
start its poller and pulse the fan-in builder. -/
def handleAddUser (active : List Nat) (userID : Nat) (dbHasUser : Bool) : AddUserOut :=
  if userID ∈ active then ⟨active, false, 0⟩
  else if dbHasUser then ⟨active ++ [userID], true, 1⟩
  else ⟨active, false, 0⟩

/-- C9: `handleAddUser` is idempotent at the event interface — for a user
id that already has an entry in the active-user map it leaves the map
unchanged, starts no polling goroutine and sends no pulse, so the map
never holds two concurrent poller entries for one id. -/
theorem c9_handle_add_user_idempotent :
    ∀ (active : List Nat) (userID : Nat) (dbHasUser : Bool),
      userID ∈ active → handleAddUser active userID dbHasUser = ⟨active, false, 0⟩ := by
  intro active userID dbHasUser h
  simp [handleAddUser, h]

/-- Witness for C9 at a concrete map. -/
theorem c9_witness : handleAddUser [3] 3 true = ⟨[3], false, 0⟩ :=
  c9_handle_add_user_idempotent [3] 3 true (by decide)

/-! ### Claim C10: `emails_to_queue ≤ emails_discovered`

The two counters are atomic; each per-item worker increments
`emails_discovered` inside `storeEmail` (before the link step) and
`emails_to_queue` in `sendToAnalysisQueue` strictly afterwards, and each
at most once.  A run is therefore an interleaving of per-worker event
sequences in which a worker's `queue` increment can only appear after its
own `disc` increment; `cwf` is that discipline, and the prefix invariant
below is the claim. -/

/-- Counter-increment events of a run: worker `w` incrementing
`emails_discovered` (`disc`) or `emails_to_queue` (`queue`). -/
inductive CEvent
  | disc (w : Nat)
  | queue (w : Nat)
deriving DecidableEq

/-- Per-worker program order of the increments: a worker increments each
counter at most once, and increments `emails_to_queue` only after having
incremented `emails_discovered`. -/
def cwf (seenD seenQ : List Nat) : List CEvent → Bool
  | [] => true
  | .disc w :: rest => !decide (w ∈ seenD) && cwf (w :: seenD) seenQ rest
  | .queue w :: rest => decide (w ∈ seenD) && !decide (w ∈ seenQ) && cwf seenD (w :: seenQ) rest

/-- Value of `emails_discovered` after a trace. -/
def countDisc (tr : List CEvent) : Nat :=
  tr.countP (fun e => match e with | .disc _ => true | .queue _ => false)

/-- Value of `emails_to_queue` after a trace. -/
def countQueue (tr : List CEvent) : Nat :=
  tr.countP (fun e => match e with | .disc _ => false | .queue _ => true)

theorem cwf_count_le (tr : List CEvent) :
    ∀ (seenD seenQ : List Nat) (n : Nat), seenQ.Nodup → seenQ ⊆ seenD →
      cwf seenD seenQ tr = true →
      countQueue (tr.take n) + seenQ.length ≤ countDisc (tr.take n) + seenD.length := by
  induction tr with
  | nil =>
    intro seenD seenQ n hnd hsub _
    have hlen : seenQ.length ≤ seenD.length :=
      (List.subperm_of_subset hnd hsub).length_le
    simp [countQueue, countDisc]
    omega
  | cons e rest ih =>
    intro seenD seenQ n hnd hsub hwf
    have hlen : seenQ.length ≤ seenD.length :=
      (List.subperm_of_subset hnd hsub).length_le
    cases n with
    | zero =>
      simp [countQueue, countDisc]
      omega
    | succ n =>
      cases e with
      | disc w =>
        simp only [cwf, Bool.and_eq_true, Bool.not_eq_true', decide_eq_false_iff_not] at hwf
        have hsub2 : seenQ ⊆ w :: seenD := fun x hx => List.mem_cons_of_mem _ (hsub hx)
        have hih := ih (w :: seenD) seenQ n hnd hsub2 hwf.2
        simp [countQueue, countDisc, List.countP_cons] at hih ⊢
        omega
      | queue w =>
        simp only [cwf, Bool.and_eq_true, Bool.not_eq_true', decide_eq_true_eq,
          decide_eq_false_iff_not] at hwf
        have hsub2 : (w :: seenQ) ⊆ seenD := by
          intro x hx
          rcases List.mem_cons.mp hx with h1 | h1
          · subst h1; exact hwf.1.1
          · exact hsub h1
        have hih := ih seenD (w :: seenQ) n (List.nodup_cons.mpr ⟨hwf.1.2, hnd⟩) hsub2 hwf.2
        simp [countQueue, countDisc, List.countP_cons] at hih ⊢
        omega

theorem linkEmailToUser_disc_spec (f : StoreFaults) (db : DB) (isNew : Bool)
    (d : Nat) (e u : Nat) :
    (linkEmailToUser f db isNew d e u).discIncr = d ∧
      ∀ b, (linkEmailToUser f db isNew d e u).result = .ok b → b = isNew := by
  unfold linkEmailToUser
  split
  · refine ⟨rfl, ?_⟩
    intro b hb
    cases hb
  · split
    · exact ⟨rfl, fun b hb => (Except.ok.inj hb).symm⟩
    · exact ⟨rfl, fun b hb => (Except.ok.inj hb).symm⟩

theorem storeEmail_disc_spec (env : Env) (f : StoreFaults) (db : DB)
    (p : ProviderEmail) (u : Nat) :
    (storeEmail env f db p u).discIncr ≤ 1 ∧
      ((storeEmail env f db p u).result = .ok true → (storeEmail env f db p u).discIncr = 1) := by
  rcases hparse : env.parseUuid p.messageId with _ | pid
  · simp [storeEmail, hparse]
  by_cases hc : f.checkFails = true
  · simp [storeEmail, hparse, hc]
  rcases hfind : db.emails.find? (fun r => decide (r.fingerprint = env.sha256hex p.body))
    with _ | row
  · by_cases hi : f.insertFails = true
    · simp [storeEmail, hparse, hc, hfind, hi]
    · by_cases hid : (db.emails.any (fun r => decide (r.id = pid))) = true
      · have h := linkEmailToUser_disc_spec f
          { db with emails := db.emails.map (fun r =>
              if r.id = pid then { r with receivedAt := p.receivedAt } else r) }
          true 1 pid u
        simp only [storeEmail, hparse, hc, hfind, hi, hid, if_true, if_false, Bool.false_eq_true]
        exact ⟨le_of_eq h.1, fun _ => h.1⟩
      · have h := linkEmailToUser_disc_spec f
          { db with emails := db.emails ++ [⟨pid, env.sha256hex p.body, p.receivedAt⟩] }
          true 1 pid u
        simp only [storeEmail, hparse, hc, hfind, hi, hid, if_true, if_false, Bool.false_eq_true]
        exact ⟨le_of_eq h.1, fun _ => h.1⟩
  · have h := linkEmailToUser_disc_spec f db false 0 row.id u
    simp only [storeEmail, hparse, hc, hfind, if_false, Bool.false_eq_true]
    refine ⟨?_, ?_⟩
    · rw [h.1]; omega
    · intro hres
      have hb := h.2 true hres
      cases hb

theorem processEmail_incr_spec (env : Env) (faults : ProcFaults) (db : DB)
    (ewu : EmailWithUser) (now : Int) (cancelled : Bool) :
    (processEmail env faults db ewu now cancelled).queueIncr ≤
      (processEmail env faults db ewu now cancelled).discIncr ∧
    (processEmail env faults db ewu now cancelled).discIncr ≤ 1 := by
  have hspec := storeEmail_disc_spec env faults.store db ewu.email ewu.userId
  unfold processEmail
  split
  · simp
  · rcases hst : storeEmail env faults.store db ewu.email ewu.userId with ⟨db1, d, r⟩
    rw [hst] at hspec
    cases r with
    | error e =>
      exact ⟨Nat.zero_le d, hspec.1⟩
    | ok isNew =>
      cases isNew with
      | false =>
        exact ⟨Nat.zero_le d, hspec.1⟩
      | true =>
        have hd : d = 1 := hspec.2 rfl
        subst hd
        exact ⟨le_refl 1, le_refl 1⟩

/-- C10: each per-item worker increments `emails_to_queue` at most as
often as `emails_discovered` (the hand-off happens only after `storeEmail`
returned *is-new* without error, and that same `storeEmail` call already
incremented `emails_discovered`; a link failure after the increment leaves
the hand-off out entirely), and consequently, along every run respecting
the per-worker increment order, every prefix — i.e. every point of the run
— satisfies `emails_to_queue ≤ emails_discovered`. -/
theorem c10_queue_le_discovered :
    (∀ (env : Env) (faults : ProcFaults) (db : DB) (ewu : EmailWithUser) (now : Int)
        (cancelled : Bool),
      (processEmail env faults db ewu now cancelled).queueIncr ≤
        (processEmail env faults db ewu now cancelled).discIncr ∧
      (processEmail env faults db ewu now cancelled).discIncr ≤ 1) ∧
    (∀ (tr : List CEvent), cwf [] [] tr = true →
      ∀ n, countQueue (tr.take n) ≤ countDisc (tr.take n)) := by
  constructor
  · exact processEmail_incr_spec
  · intro tr hwf n
    have := cwf_count_le tr [] [] n List.nodup_nil (fun x hx => absurd hx (List.not_mem_nil x)) hwf
    simpa using this

/-- Witness for C10 at a concrete two-event trace. -/
theorem c10_witness :
    countQueue ([CEvent.disc 0, CEvent.queue 0].take 2) ≤
      countDisc ([CEvent.disc 0, CEvent.queue 0].take 2) :=
  c10_queue_le_discovered.2 [CEvent.disc 0, CEvent.queue 0] (by decide) 2

end Vigil
